import Mathlib

/-!
Verification development for the hierarchical configuration resolution and
validation system of the repository (source: src/configurations.ts).

The development shallowly embeds:
  * the JavaScript-ish value universe produced by `js-yaml` and `process.env`
    (`JValue`), with JS objects and arrays represented uniformly as ordered
    association lists tagged by an `Array.isArray` flag;
  * `ReadConfig` (deepMerge / addSource / addDefault / readFromEnvironment)
    from src/configurations.ts;
  * the zod schemas `configurationSchema`, `databaseConfigurationSchema` and
    `logsConfigurationSchema` declared in src/configurations.ts, together with
    the documented semantics of the zod combinators they use
    (`z.object` in its default strip mode collecting the issues of every
    field, `z.coerce.number` = JS `Number(...)`, `z.coerce.boolean` =
    JS `Boolean(...)`, `z.number`, `z.string`, `z.url`, `.optional`,
    `.default`, `.min`, `.refine` running only when the base object parsed
    without issues), and the error formatting done by `buildConfig`.

Machine integers do not occur; configuration numbers are modelled as `Int`
(every number exercised by the specification is an integer literal).
-/

set_option autoImplicit false

namespace NodeStarter

/-- JavaScript-ish values as produced by `js-yaml` and by `process.env`
reading.  JS plain objects and arrays are both `typeof === "object"`; they are
represented uniformly as an ordered association list of string keys together
with the `Array.isArray` flag (`isArr = true` for arrays, whose elements sit
at keys "0", "1", ...).  This keeps the embedding faithful to
`deepMerge`, which distinguishes arrays from plain objects only via
`Array.isArray` and otherwise treats both as key-indexed objects. -/
inductive JValue where
  | null : JValue
  | bool (b : Bool) : JValue
  | num (n : Int) : JValue
  | str (s : String) : JValue
  | obj (isArr : Bool) (fields : List (String × JValue)) : JValue

/-- Field list of a JS object (`Record<string, unknown>`). -/
abbrev Fields := List (String × JValue)

/-- First-occurrence key lookup in the field list of an object (JS property read). -/
def lookupF : Fields → String → Option JValue
  | [], _ => none
  | (k', v) :: rest, k => if k' = k then some v else lookupF rest k

/-- JS property write `target[k] = v`: replaces the value of an existing key
in place, appends a fresh key at the end (JS insertion order semantics). -/
def upsert : Fields → String → JValue → Fields
  | [], k, v => [(k, v)]
  | (k', v') :: rest, k, v =>
    if k' = k then (k, v) :: rest else (k', v') :: upsert rest k v

/-- JS truthiness of a value. -/
def jsTruthyV : JValue → Bool
  | .null => false
  | .bool b => b
  | .num n => n != 0
  | .str s => s != ""
  | .obj _ _ => true

/-- JS truthiness of a possibly-absent value (`undefined` is falsy). -/
def jsTruthy : Option JValue → Bool
  | none => false
  | some v => jsTruthyV v

mutual

/-- `ReadConfig.deepMerge(target, source)` from src/configurations.ts, made
functional: iterates the source fields in order; a source value that is a
truthy non-array object is merged recursively into the target value at that
key (the target value is kept only when it is itself `typeof "object"` and
truthy, i.e. a plain object or an array; otherwise it is replaced by `{}`);
any other source value (scalars, `null`, arrays) overwrites. -/
def mergeObj : Fields → Fields → Fields
  | t, [] => t
  | t, (k, sv) :: rest => mergeObj (upsert t k (mergeStep t k sv)) rest
termination_by structural _ s => s

/-- The body of the `for (const key in source)` loop of `deepMerge`: the value
stored at key `k` of the target, given source value `sv`. -/
def mergeStep (t : Fields) (k : String) (sv : JValue) : JValue :=
  match sv with
  | .obj false sfs =>
    match lookupF t k with
    | some (.obj b tfs) => .obj b (mergeObj tfs sfs)
    | _ => .obj false (mergeObj [] sfs)
  | _ => sv
termination_by structural sv

end

/-- The `ReadConfig` accumulator class of src/configurations.ts. -/
structure ReadConfig where
  configurations : Fields

/-- `new ReadConfig()`. -/
def ReadConfig.new : ReadConfig := ⟨[]⟩

/-- `ReadConfig.addSource`: deep-merges the given mapping into the
accumulated configuration. -/
def ReadConfig.addSource (rc : ReadConfig) (jsonData : Fields) : ReadConfig :=
  ⟨mergeObj rc.configurations jsonData⟩

/-- `ReadConfig.addDefault(name, value)`: sets the top-level key only when the
value is truthy. -/
def ReadConfig.addDefault (rc : ReadConfig) (name : String) (value : Option JValue) :
    ReadConfig :=
  match value with
  | some v => if jsTruthyV v then ⟨upsert rc.configurations name v⟩ else rc
  | none => rc

/-! ### String helpers used by `readFromEnvironment`

These model the JavaScript string operations used in src/configurations.ts
(`startsWith`, `replace` of the leading marker, `split`, `toLowerCase`, and
the `toCamelCase` helper) on the ASCII strings that environment-variable
names are. -/

/-- Whether the character list `p` is an initial segment of `cs`
(JS `String.prototype.startsWith`). -/
def listPref : List Char → List Char → Bool
  | [], _ => true
  | _ :: _, [] => false
  | a :: as, b :: bs => a = b && listPref as bs

/-- JS `s.startsWith(p)`. -/
def strStartsWith (s p : String) : Bool :=
  listPref p.toList s.toList

/-- Drop the first `n` characters of a string; models the
`key.replace(marker, "")` in `readFromEnvironment`, which removes the leading
occurrence of the marker once `startsWith` has been established. -/
def strDropChars (s : String) (n : Nat) : String :=
  String.mk (s.toList.drop n)

/-- JS `String.prototype.split` on a non-empty separator, on character
lists: `acc` is the current chunk being read (in reverse); `fuel` bounds the
scan so the recursion is structural — any `fuel ≥ cs.length` realises the JS
behaviour, and the exhaustion arm is unreachable then (every step consumes at
least one character). -/
def splitGo (sep : List Char) : Nat → List Char → List Char → List (List Char)
  | _, acc, [] => [acc.reverse]
  | 0, acc, cs => [acc.reverse ++ cs]
  | fuel + 1, acc, c :: rest =>
    if listPref sep (c :: rest) then
      acc.reverse :: splitGo sep fuel [] (List.drop (sep.length - 1) rest)
    else
      splitGo sep fuel (c :: acc) rest

/-- JS `s.split(sep)` for a non-empty `sep` (the source always splits on
`"__"`; the empty-separator behaviour of JS is not exercised and is modelled
as the identity split). -/
def jsSplit (s sep : String) : List String :=
  if sep.toList = [] then [s]
  else (splitGo sep.toList s.toList.length [] s.toList).map String.mk

/-- JS `s.toLowerCase()` (ASCII). -/
def jsToLower (s : String) : String :=
  String.mk (s.toList.map Char.toLower)

/-- The global regex replacement of `toCamelCase`
(`/_([a-z])/g` → uppercase the captured letter), applied to an already
lowercased character list, written as a left-to-right scanner: the flag
records an underscore that has been read but not yet emitted.  An underscore
followed by a lowercase letter is replaced by the uppercase of the letter; other
characters are kept. -/
def camelScan : Bool → List Char → List Char
  | false, [] => []
  | true, [] => ['_']
  | false, c :: rest =>
    if c = '_' then camelScan true rest else c :: camelScan false rest
  | true, c :: rest =>
    if 'a' ≤ c ∧ c ≤ 'z' then c.toUpper :: camelScan false rest
    else '_' :: (if c = '_' then camelScan true rest else c :: camelScan false rest)

/-- `toCamelCase` from src/configurations.ts: lowercases, then uppercases
every letter directly following an underscore, dropping that underscore. -/
def toCamelCase (s : String) : String :=
  String.mk (camelScan false (s.toList.map Char.toLower))

/-- The nested write performed for one environment variable in
`readFromEnvironment`: descend along all key parts but the final one
(skipping empty parts, keeping an existing object — plain or array — at a
part and replacing anything else by `{}`), then store the environment string
under the final part when that part is non-empty. -/
def setPath (fs : Fields) (parts : List String) (v : String) : Fields :=
  match parts with
  | [] => fs
  | [lastKey] => if lastKey = "" then fs else upsert fs lastKey (.str v)
  | part :: rest =>
    if part = "" then setPath fs rest v
    else
      match lookupF fs part with
      | some (.obj b ifs) => upsert fs part (.obj b (setPath ifs rest v))
      | _ => upsert fs part (.obj false (setPath [] rest v))

/-- Processing of a single `process.env` entry by `readFromEnvironment`
(the body of the `for (const key in process.env)` loop), with the marker
`pre ++ preSep` already concatenated and `useCamel` the truthiness of the
`snakeCaseSeparator` argument. -/
def envStep (marker sep : String) (useCamel : Bool) (config : Fields)
    (entry : String × String) : Fields :=
  if strStartsWith entry.1 marker then
    let configKey := strDropChars entry.1 marker.toList.length
    let keyParts := (jsSplit configKey sep).map
      (fun part => if useCamel then toCamelCase part else jsToLower part)
    match keyParts with
    | [] => config
    | k0 :: _ => if k0 = "" then config else setPath config keyParts entry.2
  else config

/-- `ReadConfig.readFromEnvironment(prefix, prefixSeparator, separator,
snakeCaseSeparator)` from src/configurations.ts, over an explicit
`process.env` association list.  Throws (models as `.error`) when a truthy
`snakeCaseSeparator` equals `separator`. -/
def ReadConfig.readFromEnvironment (env : List (String × String))
    (pre preSep sep : String) (snakeSep : Option String) :
    Except String Fields :=
  if (match snakeSep with
      | some s => s != "" && s = sep
      | none => false) then
    .error "snakeCaseSeparator and separator cannot be the same"
  else
    .ok (env.foldl
      (envStep (pre ++ preSep) sep
        (match snakeSep with | some s => s != "" | none => false))
      [])

/-! ### Number coercion (JS `Number(...)`)

`z.coerce.number()` applies JS `Number(...)` to the input and fails when the
result is `NaN`.  Environment and YAML configuration values only ever exercise
integer numerals, so the string case is modelled for optionally signed decimal
integer numerals (after trimming); any other string, and objects and arrays,
are modelled as `NaN` (`none`). -/

/-- Decimal digit accumulation; `none` on the first non-digit. -/
def digitsToNat : List Char → Nat → Option Nat
  | [], acc => some acc
  | c :: rest, acc =>
    if c.isDigit then digitsToNat rest (acc * 10 + (c.toNat - 48)) else none

/-- ASCII whitespace (the forms JS `Number` strips from a string). -/
def isWsp (c : Char) : Bool :=
  c = ' ' || c = '\t' || c = '\n' || c = '\r'

/-- Strip leading and trailing whitespace from a character list. -/
def trimChars (cs : List Char) : List Char :=
  ((cs.dropWhile isWsp).reverse.dropWhile isWsp).reverse

/-- JS `Number(s)` for a string, restricted to integer numerals:
whitespace-trimmed empty string is `0`, an optionally signed non-empty digit
string is its value, anything else is `NaN` (`none`). -/
def jsStringToNumber (s : String) : Option Int :=
  match trimChars s.toList with
  | [] => some 0
  | '+' :: rest =>
    match rest with
    | [] => none
    | _ => (digitsToNat rest 0).map (fun n => (n : Int))
  | '-' :: rest =>
    match rest with
    | [] => none
    | _ => (digitsToNat rest 0).map (fun n => -(n : Int))
  | cs => (digitsToNat cs 0).map (fun n => (n : Int))

/-- JS `Number(x)` on a possibly-absent value (`Number(undefined)` is `NaN`,
modelled as `none`). -/
def jsNumber : Option JValue → Option Int
  | none => none
  | some .null => some 0
  | some (.bool b) => some (if b then 1 else 0)
  | some (.num n) => some n
  | some (.str s) => jsStringToNumber s
  | some (.obj _ _) => none

/-! ### The zod schemas of src/configurations.ts -/

/-- One zod issue: the path of the violated field and its message. -/
structure Issue where
  path : List String
  message : String
  deriving DecidableEq

/-- The zod parsed-type name used in `invalid_type` messages. -/
def jsTypeName : Option JValue → String
  | none => "undefined"
  | some .null => "null"
  | some (.bool _) => "boolean"
  | some (.num _) => "number"
  | some (.str _) => "string"
  | some (.obj true _) => "array"
  | some (.obj false _) => "object"

/-- The issues of a parse result (`[]` on success). -/
def errsOf {α : Type} : Except (List Issue) α → List Issue
  | .ok _ => []
  | .error es => es

/-- Prepend an object key to the paths of the issues of a sub-schema
(zod path nesting). -/
def atKey {α : Type} (k : String) : Except (List Issue) α → Except (List Issue) α
  | .ok a => .ok a
  | .error es => .error (es.map (fun i => ⟨k :: i.path, i.message⟩))

/-- `z.coerce.number()`: JS `Number(...)`, failing on `NaN`. -/
def zCoerceNumber (v : Option JValue) : Except (List Issue) Int :=
  match jsNumber v with
  | some n => .ok n
  | none => .error [⟨[], "Invalid input: expected number, received NaN"⟩]

/-- The `.min(m)` check on an already-parsed number. -/
def zNumberMin (m : Int) (n : Int) : Except (List Issue) Int :=
  if n < m then .error [⟨[], "Too small: expected number to be >=" ++ toString m⟩]
  else .ok n

/-- `z.number()` (no coercion): only an actual number is accepted. -/
def zNumber (v : Option JValue) : Except (List Issue) Int :=
  match v with
  | some (.num n) => .ok n
  | other => .error [⟨[], "Invalid input: expected number, received " ++ jsTypeName other⟩]

/-- `z.string()`. -/
def zString (v : Option JValue) : Except (List Issue) String :=
  match v with
  | some (.str s) => .ok s
  | other => .error [⟨[], "Invalid input: expected string, received " ++ jsTypeName other⟩]

/-- Abstraction of WHATWG URL validity used by `z.url()`: a non-empty scheme
followed by a colon.  No claim depends on the exact extent of URL validity. -/
def isValidUrl (s : String) : Bool :=
  match jsSplit s ":" with
  | scheme :: _ :: _ => scheme != ""
  | _ => false

/-- `z.url()`. -/
def zUrl (v : Option JValue) : Except (List Issue) String :=
  match v with
  | some (.str s) =>
    if isValidUrl s then .ok s else .error [⟨[], "Invalid URL"⟩]
  | other => .error [⟨[], "Invalid input: expected string, received " ++ jsTypeName other⟩]

/-- `.optional()` wrapper: absent (`undefined`) parses to `none`. -/
def zOpt {α : Type} (inner : Option JValue → Except (List Issue) α)
    (v : Option JValue) : Except (List Issue) (Option α) :=
  match v with
  | none => .ok none
  | some _ => (inner v).map some

/-- `.default(d)` wrapper: absent (`undefined`) short-circuits to the default. -/
def zDefault {α : Type} (d : α) (inner : Option JValue → Except (List Issue) α)
    (v : Option JValue) : Except (List Issue) α :=
  match v with
  | none => .ok d
  | some _ => inner v

/-- `z.object` issue collection over three fields: all field results are
computed, the issues of every field are reported (no short-circuit), and the object
value is produced only when every field succeeded. -/
def collect3 {α1 α2 α3 β : Type} (r1 : Except (List Issue) α1)
    (r2 : Except (List Issue) α2) (r3 : Except (List Issue) α3)
    (f : α1 → α2 → α3 → β) : Except (List Issue) β :=
  match r1, r2, r3 with
  | .ok a, .ok b, .ok c => .ok (f a b c)
  | _, _, _ => .error (errsOf r1 ++ errsOf r2 ++ errsOf r3)

/-- `z.object` issue collection over five fields. -/
def collect5 {α1 α2 α3 α4 α5 β : Type} (r1 : Except (List Issue) α1)
    (r2 : Except (List Issue) α2) (r3 : Except (List Issue) α3)
    (r4 : Except (List Issue) α4) (r5 : Except (List Issue) α5)
    (f : α1 → α2 → α3 → α4 → α5 → β) : Except (List Issue) β :=
  match r1, r2, r3, r4, r5 with
  | .ok a, .ok b, .ok c, .ok d, .ok e => .ok (f a b c d e)
  | _, _, _, _, _ =>
    .error (errsOf r1 ++ errsOf r2 ++ errsOf r3 ++ errsOf r4 ++ errsOf r5)

/-- `LogsConfigurationType = z.infer<typeof logsConfigurationSchema>`. -/
structure LogsConfigurationType where
  terminal : Bool
  dailyRotateFile : Bool
  loki : Bool
  lokiUrl : Option String
  lokiAppName : Option String
  lokiEndpointToken : Option String
  deriving DecidableEq

/-- `z.infer<typeof databaseConfigurationSchema>`. -/
structure DatabaseConfigurationType where
  host : String
  username : String
  password : String
  connectionLimit : Int
  port : Int
  deriving DecidableEq

/-- `ConfigurationType = z.infer<typeof configurationSchema>`. -/
structure ConfigurationType where
  port : Int
  tenant : String
  workers : Int
  database : DatabaseConfigurationType
  logs : LogsConfigurationType
  deriving DecidableEq

/-- JS truthiness of an optional string (the `.refine` predicate reads
`data.lokiUrl`, a `string | undefined`). -/
def optStrTruthy : Option String → Bool
  | none => false
  | some s => s != ""

/-- `logsConfigurationSchema`: three `z.coerce.boolean()` fields (never
failing, JS truthiness), three optional string/url fields, then the
`.refine((data) => !data.loki || data.lokiUrl)` cross-field check with its
custom message at path `lokiUrl`.  As in zod, the refinement runs only when
the base object parsed without issues (the `collect3`-built result binds into
the refinement). -/
def parseLogsConfiguration (v : Option JValue) : Except (List Issue) LogsConfigurationType :=
  match v with
  | some (.obj false lfs) =>
    (collect3
      (atKey "lokiUrl" (zOpt zUrl (lookupF lfs "lokiUrl")))
      (atKey "lokiAppName" (zOpt zString (lookupF lfs "lokiAppName")))
      (atKey "lokiEndpointToken" (zOpt zString (lookupF lfs "lokiEndpointToken")))
      (fun url app tok =>
        (⟨jsTruthy (lookupF lfs "terminal"),
          jsTruthy (lookupF lfs "dailyRotateFile"),
          jsTruthy (lookupF lfs "loki"), url, app, tok⟩ : LogsConfigurationType))).bind
      (fun cfg =>
        if !cfg.loki || optStrTruthy cfg.lokiUrl then .ok cfg
        else .error [⟨["lokiUrl"], "lokiUrl is required when loki is true"⟩])
  | other => .error [⟨[], "Invalid input: expected object, received " ++ jsTypeName other⟩]

/-- `databaseConfigurationSchema`: plain strings for host/username/password,
`z.number().default(10)` for connectionLimit and `z.number().min(1000).default(3306)`
for port — note: no coercion on the two numeric fields. -/
def parseDatabaseConfiguration (v : Option JValue) :
    Except (List Issue) DatabaseConfigurationType :=
  match v with
  | some (.obj false dfs) =>
    collect5
      (atKey "host" (zString (lookupF dfs "host")))
      (atKey "username" (zString (lookupF dfs "username")))
      (atKey "password" (zString (lookupF dfs "password")))
      (atKey "connectionLimit" (zDefault 10 zNumber (lookupF dfs "connectionLimit")))
      (atKey "port" (zDefault 3306 (fun u => (zNumber u).bind (zNumberMin 1000))
        (lookupF dfs "port")))
      (fun h u pw cl po => (⟨h, u, pw, cl, po⟩ : DatabaseConfigurationType))
  | other => .error [⟨[], "Invalid input: expected object, received " ++ jsTypeName other⟩]

/-- `configurationSchema.safeParse`: `z.coerce.number().min(1000)` for port,
`z.string()` for tenant, `z.number().default(-1)` for workers, and the two
nested object schemas; issues of every field are collected in shape order. -/
def parseConfiguration (v : JValue) : Except (List Issue) ConfigurationType :=
  match v with
  | .obj false fs =>
    collect5
      (atKey "port" ((zCoerceNumber (lookupF fs "port")).bind (zNumberMin 1000)))
      (atKey "tenant" (zString (lookupF fs "tenant")))
      (atKey "workers" (zDefault (-1) zNumber (lookupF fs "workers")))
      (atKey "database" (parseDatabaseConfiguration (lookupF fs "database")))
      (atKey "logs" (parseLogsConfiguration (lookupF fs "logs")))
      (fun p t w d l => (⟨p, t, w, d, l⟩ : ConfigurationType))
  | other => .error [⟨[], "Invalid input: expected object, received " ++ jsTypeName (some other)⟩]

/-- The `path.join(".") + ":" + message` rendering of one issue in
`buildConfig`. -/
def formatIssue (i : Issue) : String :=
  String.intercalate "." i.path ++ ":" ++ i.message

/-- The aggregated multi-line message thrown by `buildConfig` on validation
failure. -/
def validationErrorMessage (es : List Issue) : String :=
  "Configuration validation failed:\n " ++
    String.intercalate "\n  " (es.map formatIssue)

/-- `buildConfig` from src/configurations.ts, over explicit file contents and
environment: merges base file, environment file and `APP`-derived environment
variables, applies the bare-`PORT` default, and validates.  The outer
`Except String` is the `readFromEnvironment` guard; the inner
`Except (List Issue)` is the `safeParse` outcome whose failure `buildConfig`
escalates to a thrown error built by `validationErrorMessage`. -/
def buildConfig (base envFile : Fields) (env : List (String × String)) :
    Except String (Except (List Issue) ConfigurationType) :=
  (ReadConfig.readFromEnvironment env "APP" "_" "__" (some "_")).map
    (fun envCfg =>
      let rc := ((((ReadConfig.new).addSource base).addSource envFile).addSource
        envCfg).addDefault "port"
          (((env.lookup "PORT").map JValue.str))
      parseConfiguration (.obj false rc.configurations))

/-! ### Observations of nested mappings

To state the layered-merge property (spec §8, first bullet) we observe a
value along a dotted key path: `getPath` descends through nested plain
mappings, `leafAt` additionally requires the found value to be a leaf (a
non-mapping: scalar, `null` or array — exactly the values `deepMerge`
overwrites wholesale). -/

/-- Whether a value is a plain (non-array) mapping — the values `deepMerge`
recurses into. -/
def isMap : JValue → Bool
  | .obj false _ => true
  | _ => false

/-- Descend a value along a path of keys through plain mappings. -/
def getPath : JValue → List String → Option JValue
  | v, [] => some v
  | .obj false fs, k :: p =>
    (match lookupF fs k with
     | some v => getPath v p
     | none => none)
  | _, _ :: _ => none

/-- Observation of a value at a path: `none` when the path is absent,
`some none` when a plain mapping sits there, `some (some u)` when the leaf
`u` sits there. -/
def obsV (v : JValue) (p : List String) : Option (Option JValue) :=
  match getPath v p with
  | none => none
  | some u => some (if isMap u then none else some u)

/-- Observation of a field list at a path (the list seen as a mapping). -/
def obsF (fs : Fields) (p : List String) : Option (Option JValue) :=
  obsV (.obj false fs) p

/-- Leaf value of a mapping at a dotted key path (absent when the path is
missing or holds a nested mapping). -/
def leafAt (fs : Fields) (p : List String) : Option JValue :=
  match obsF fs p with
  | some (some u) => some u
  | _ => none

/-- Left-biased choice on observations (`later source first`). -/
def oOr {α : Type} : Option α → Option α → Option α
  | some x, _ => some x
  | none, b => b

/-- Whether a key is present (JS `key in target`, up to first occurrence). -/
def hasKey (fs : Fields) (k : String) : Bool :=
  (lookupF fs k).isSome

mutual

/-- Well-formedness of a value: every plain-mapping level has pairwise
distinct keys (JS objects and parsed YAML mappings cannot carry duplicate
keys). -/
def wfV : JValue → Bool
  | .obj false fs => wfFs fs
  | _ => true
termination_by structural v => v

/-- Well-formedness of a field list: distinct keys, recursively. -/
def wfFs : Fields → Bool
  | [] => true
  | (k, v) :: rest => !hasKey rest k && wfV v && wfFs rest
termination_by structural fs => fs

end

mutual

/-- Shape compatibility of two values: wherever both sources carry a value at
the same key path, either both carry a plain mapping or neither does.  This is
the hypothesis under which layered deep-merging acts leaf-wise. -/
def compatV : JValue → JValue → Bool
  | .obj false tfs, .obj false sfs => compatFs tfs sfs
  | .obj false _, _ => false
  | _, .obj false _ => false
  | _, _ => true
termination_by structural _ s => s

/-- Shape compatibility of two field lists: every key of the second present
in the first relates compatible values. -/
def compatFs : Fields → Fields → Bool
  | _, [] => true
  | tfs, (k, sv) :: rest =>
    (match lookupF tfs k with
     | some tv => compatV tv sv
     | none => true) && compatFs tfs rest
termination_by structural _ s => s

end

/-- Propositional shape compatibility, phrased on observations: where both
mappings are observable at a path, they agree on being a mapping. -/
def CompatP (t s : Fields) : Prop :=
  ∀ q x y, obsF t q = some x → obsF s q = some y → (x = none ↔ y = none)

/-! ### Basic lemmas about lookup, upsert and the merge -/

@[simp]
theorem lookupF_upsert_self (t : Fields) (k : String) (v : JValue) :
    lookupF (upsert t k v) k = some v := by
  induction t with
  | nil => simp [upsert, lookupF]
  | cons hd tl ih =>
    obtain ⟨k', v'⟩ := hd
    by_cases h : k' = k <;> simp [upsert, lookupF, h, ih]

theorem lookupF_upsert_ne (t : Fields) (k : String) (v : JValue) (k' : String)
    (h : k' ≠ k) : lookupF (upsert t k v) k' = lookupF t k' := by
  have h' : ¬(k = k') := fun e => h e.symm
  induction t with
  | nil => simp [upsert, lookupF, h']
  | cons hd tl ih =>
    obtain ⟨a, b⟩ := hd
    by_cases ha : a = k
    · subst ha
      simp [upsert, lookupF, h']
    · by_cases ha' : a = k' <;> simp [upsert, lookupF, ha, ha', ih, h, h']

@[simp]
theorem mergeObj_nil (t : Fields) : mergeObj t [] = t := by
  rw [mergeObj]

theorem mergeObj_cons (t : Fields) (k : String) (sv : JValue) (rest : Fields) :
    mergeObj t ((k, sv) :: rest) = mergeObj (upsert t k (mergeStep t k sv)) rest := by
  rw [mergeObj]

theorem mergeStep_map (t : Fields) (k : String) (sfs : Fields) :
    mergeStep t k (.obj false sfs) =
      (match lookupF t k with
       | some (.obj b tfs) => .obj b (mergeObj tfs sfs)
       | _ => .obj false (mergeObj [] sfs)) := by
  rw [mergeStep]

theorem mergeStep_of_notMap (t : Fields) (k : String) (sv : JValue)
    (h : isMap sv = false) : mergeStep t k sv = sv := by
  cases sv with
  | obj b sfs => cases b <;> simp_all [isMap, mergeStep]
  | null => simp [mergeStep]
  | bool b => simp [mergeStep]
  | num n => simp [mergeStep]
  | str s => simp [mergeStep]

theorem mergeStep_congr (t t' : Fields) (k : String) (sv : JValue)
    (h : lookupF t' k = lookupF t k) : mergeStep t' k sv = mergeStep t k sv := by
  cases sv with
  | obj b sfs =>
    cases b
    · rw [mergeStep_map, mergeStep_map, h]
    · simp [mergeStep]
  | null => simp [mergeStep]
  | bool b => simp [mergeStep]
  | num n => simp [mergeStep]
  | str s => simp [mergeStep]

theorem lookupF_eq_none_of_hasKey_false (fs : Fields) (k : String)
    (h : hasKey fs k = false) : lookupF fs k = none := by
  unfold hasKey at h
  cases hl : lookupF fs k with
  | none => rfl
  | some v => rw [hl] at h; simp at h

/-- The per-key characterisation of `deepMerge`: the merged mapping holds, at
each key, the target value when the source lacks the key, and the loop-body
value `mergeStep` when the source has it (the source having pairwise-distinct
keys). -/
theorem lookupF_mergeObj (s : Fields) : ∀ (t : Fields) (k : String),
    wfFs s = true →
    lookupF (mergeObj t s) k =
      (match lookupF s k with
       | none => lookupF t k
       | some sv => some (mergeStep t k sv)) := by
  induction s with
  | nil => intro t k _; simp [lookupF]
  | cons hd rest ih =>
    obtain ⟨k1, sv1⟩ := hd
    intro t k hwf
    rw [wfFs] at hwf
    simp only [Bool.and_eq_true, Bool.not_eq_true'] at hwf
    obtain ⟨⟨hk1, _⟩, hrest⟩ := hwf
    rw [mergeObj_cons, ih _ k hrest]
    by_cases hk : k1 = k
    · subst hk
      rw [lookupF_eq_none_of_hasKey_false rest k1 hk1]
      simp [lookupF]
    · simp only [lookupF, if_neg hk]
      cases hr : lookupF rest k with
      | none => simp [lookupF_upsert_ne _ _ _ _ (Ne.symm hk)]
      | some sv =>
        simp [mergeStep_congr _ _ _ _ (lookupF_upsert_ne t k1 _ k (Ne.symm hk))]

/-! ### Observation lemmas and the layered-merge theorem -/

@[simp]
theorem oOr_some {α : Type} (x : α) (b : Option α) : oOr (some x) b = some x := rfl

@[simp]
theorem oOr_none {α : Type} (b : Option α) : oOr none b = b := rfl

theorem oOr_none_right {α : Type} (a : Option α) : oOr a none = a := by
  cases a <;> rfl

theorem obsF_root (fs : Fields) : obsF fs [] = some none := by
  simp [obsF, obsV, getPath, isMap]

theorem obsV_map_eq (fs : Fields) (p : List String) :
    obsV (.obj false fs) p = obsF fs p := rfl

theorem obsF_cons_none (fs : Fields) (k : String) (p : List String)
    (h : lookupF fs k = none) : obsF fs (k :: p) = none := by
  simp [obsF, obsV, getPath, h]

theorem obsF_cons_some (fs : Fields) (k : String) (p : List String) (v : JValue)
    (h : lookupF fs k = some v) : obsF fs (k :: p) = obsV v p := by
  simp only [obsF, obsV, getPath, h]

theorem obsV_leaf_root (v : JValue) (h : isMap v = false) :
    obsV v [] = some (some v) := by
  simp [obsV, getPath, h]

theorem obsV_notMap_cons (v : JValue) (k : String) (p : List String)
    (h : isMap v = false) : obsV v (k :: p) = none := by
  cases v with
  | obj b fs =>
    cases b
    · simp [isMap] at h
    · simp [obsV, getPath]
  | null => simp [obsV, getPath]
  | bool b => simp [obsV, getPath]
  | num n => simp [obsV, getPath]
  | str s => simp [obsV, getPath]

theorem compatP_nilT (s : Fields) : CompatP [] s := by
  intro q x y hx hy
  cases q with
  | nil =>
    rw [obsF_root] at hx hy
    cases hx; cases hy
    exact Iff.rfl
  | cons k q' =>
    rw [obsF_cons_none [] k q' rfl] at hx
    simp at hx

theorem wfFs_lookup (s : Fields) : ∀ (k : String) (sv : JValue),
    wfFs s = true → lookupF s k = some sv → wfV sv = true := by
  induction s with
  | nil => intro k sv _ hl; simp [lookupF] at hl
  | cons hd rest ih =>
    obtain ⟨k1, v1⟩ := hd
    intro k sv hwf hl
    rw [wfFs] at hwf
    simp only [Bool.and_eq_true] at hwf
    obtain ⟨⟨_, hv1⟩, hrest⟩ := hwf
    by_cases hk : k1 = k
    · simp only [lookupF, if_pos hk] at hl
      cases hl; exact hv1
    · simp only [lookupF, if_neg hk] at hl
      exact ih k sv hrest hl

theorem compatFs_lookup (s : Fields) : ∀ (t : Fields) (k : String) (sv tv : JValue),
    compatFs t s = true → lookupF s k = some sv → lookupF t k = some tv →
    compatV tv sv = true := by
  induction s with
  | nil => intro t k sv tv _ hl _; simp [lookupF] at hl
  | cons hd rest ih =>
    obtain ⟨k1, v1⟩ := hd
    intro t k sv tv hcp hls hlt
    rw [compatFs] at hcp
    simp only [Bool.and_eq_true] at hcp
    obtain ⟨h1, hrest⟩ := hcp
    by_cases hk : k1 = k
    · subst hk
      simp only [lookupF, if_pos rfl] at hls
      cases hls
      rw [hlt] at h1
      exact h1
    · simp only [lookupF, if_neg hk] at hls
      exact ih t k sv tv hrest hls hlt

theorem compatP_key (t s : Fields) (k : String) (tv sv : JValue)
    (hc : CompatP t s) (ht : lookupF t k = some tv) (hs : lookupF s k = some sv) :
    isMap tv = isMap sv := by
  have hx : obsF t [k] = some (if isMap tv then none else some tv) := by
    rw [obsF_cons_some t k [] tv ht]; simp [obsV, getPath]
  have hy : obsF s [k] = some (if isMap sv then none else some sv) := by
    rw [obsF_cons_some s k [] sv hs]; simp [obsV, getPath]
  have hiff := hc [k] _ _ hx hy
  cases hmt : isMap tv <;> cases hms : isMap sv <;> simp_all

theorem compatP_desc (t s : Fields) (k : String) (tfs sfs : Fields)
    (hc : CompatP t s) (ht : lookupF t k = some (.obj false tfs))
    (hs : lookupF s k = some (.obj false sfs)) : CompatP tfs sfs := by
  intro q x y hx hy
  refine hc (k :: q) x y ?_ ?_
  · rw [obsF_cons_some t k q _ ht, obsV_map_eq]; exact hx
  · rw [obsF_cons_some s k q _ hs, obsV_map_eq]; exact hy

theorem mergeStep_map_none (t : Fields) (k : String) (sfs : Fields)
    (h : lookupF t k = none) :
    mergeStep t k (.obj false sfs) = .obj false (mergeObj [] sfs) := by
  rw [mergeStep_map, h]

theorem mergeStep_map_obj (t : Fields) (k : String) (sfs : Fields) (b : Bool)
    (tfs : Fields) (h : lookupF t k = some (.obj b tfs)) :
    mergeStep t k (.obj false sfs) = .obj b (mergeObj tfs sfs) := by
  rw [mergeStep_map, h]

/-- Scalar/array source values overwrite; the observation law for such a key. -/
theorem obs_merge_scalar (t s : Fields) (k : String) (p' : List String)
    (sv : JValue) (hc : CompatP t s) (hs : lookupF s k = some sv)
    (hm : isMap sv = false) :
    obsV (mergeStep t k sv) p' = oOr (obsV sv p') (obsF t (k :: p')) := by
  rw [mergeStep_of_notMap t k sv hm]
  cases p' with
  | nil => rw [obsV_leaf_root sv hm]; rfl
  | cons k2 q =>
    rw [obsV_notMap_cons sv k2 q hm, oOr_none]
    cases ht : lookupF t k with
    | none => rw [obsF_cons_none t k _ ht]
    | some tv =>
      have hmt := compatP_key t s k tv sv hc ht hs
      rw [hm] at hmt
      rw [obsF_cons_some t k _ tv ht, obsV_notMap_cons tv k2 q hmt]

/-- The observation law of one deep-merge: at every path, the merged mapping
observes as the source where the source is observable, and as the target
elsewhere — provided the source carries no duplicate keys and the two
mappings are shape compatible. -/
theorem obsF_mergeObj (p : List String) : ∀ (t s : Fields),
    wfFs s = true → CompatP t s →
    obsF (mergeObj t s) p = oOr (obsF s p) (obsF t p) := by
  induction p with
  | nil => intro t s _ _; rw [obsF_root, obsF_root]; rfl
  | cons k p' ih =>
    intro t s hwf hc
    cases hs : lookupF s k with
    | none =>
      have hm : lookupF (mergeObj t s) k = lookupF t k := by
        rw [lookupF_mergeObj s t k hwf, hs]
      rw [obsF_cons_none s k p' hs, oOr_none]
      cases ht : lookupF t k with
      | none => rw [obsF_cons_none _ _ _ (hm.trans ht), obsF_cons_none _ _ _ ht]
      | some tv => rw [obsF_cons_some _ _ _ _ (hm.trans ht), obsF_cons_some _ _ _ _ ht]
    | some sv =>
      have hmm : lookupF (mergeObj t s) k = some (mergeStep t k sv) := by
        rw [lookupF_mergeObj s t k hwf, hs]
      rw [obsF_cons_some _ _ _ _ hmm, obsF_cons_some _ _ _ _ hs]
      cases sv with
      | obj sb sfs =>
        cases sb with
        | true => exact obs_merge_scalar t s k p' (.obj true sfs) hc hs rfl
        | false =>
          have hwfs : wfFs sfs = true := by
            have h := wfFs_lookup s k _ hwf hs
            rwa [wfV] at h
          cases ht : lookupF t k with
          | none =>
            rw [mergeStep_map_none t k sfs ht, obsV_map_eq, obsV_map_eq,
              ih [] sfs hwfs (compatP_nilT sfs), obsF_cons_none t k p' ht,
              oOr_none_right]
            cases p' with
            | nil => rw [obsF_root, obsF_root]; rfl
            | cons k2 q => rw [obsF_cons_none [] k2 q rfl, oOr_none_right]
          | some tv =>
            cases tv with
            | obj tb tfs =>
              cases tb with
              | false =>
                have hcd : CompatP tfs sfs := compatP_desc t s k tfs sfs hc ht hs
                rw [mergeStep_map_obj t k sfs false tfs ht, obsV_map_eq,
                  obsV_map_eq, ih tfs sfs hwfs hcd,
                  obsF_cons_some t k p' _ ht, obsV_map_eq]
              | true =>
                have h := compatP_key t s k _ _ hc ht hs
                simp [isMap] at h
            | null =>
              have h := compatP_key t s k _ _ hc ht hs
              simp [isMap] at h
            | bool b =>
              have h := compatP_key t s k _ _ hc ht hs
              simp [isMap] at h
            | num n =>
              have h := compatP_key t s k _ _ hc ht hs
              simp [isMap] at h
            | str sstr =>
              have h := compatP_key t s k _ _ hc ht hs
              simp [isMap] at h
      | null => exact obs_merge_scalar t s k p' .null hc hs rfl
      | bool b => exact obs_merge_scalar t s k p' (.bool b) hc hs rfl
      | num n => exact obs_merge_scalar t s k p' (.num n) hc hs rfl
      | str sstr => exact obs_merge_scalar t s k p' (.str sstr) hc hs rfl

/-! ### Chaining the merge law over the three layered sources -/

theorem compatV_isMap : ∀ (tv sv : JValue), compatV tv sv = true → isMap tv = isMap sv := by
  intro tv sv h
  rcases tv with _ | tb | tn | ts | ⟨tb, tfs⟩ <;>
    rcases sv with _ | sb | sn | ss | ⟨sb, sfs⟩ <;>
    first
      | rfl
      | (cases tb <;> cases sb <;> simp_all [compatV, isMap])
      | (cases tb <;> simp_all [compatV, isMap])
      | (cases sb <;> simp_all [compatV, isMap])

theorem compatV_desc (tfs sfs : Fields) (h : compatV (.obj false tfs) (.obj false sfs) = true) :
    compatFs tfs sfs = true := by
  rwa [compatV] at h

/-- The decidable shape-compatibility check implies the propositional one. -/
theorem compatFs_toP : ∀ (q : List String) (t s : Fields), compatFs t s = true →
    ∀ x y, obsF t q = some x → obsF s q = some y → (x = none ↔ y = none) := by
  intro q
  induction q with
  | nil =>
    intro t s _ x y hx hy
    rw [obsF_root] at hx hy
    cases hx; cases hy
    exact Iff.rfl
  | cons k q' ih =>
    intro t s hc x y hx hy
    cases hlt : lookupF t k with
    | none => rw [obsF_cons_none t k q' hlt] at hx; simp at hx
    | some tv =>
      cases hls : lookupF s k with
      | none => rw [obsF_cons_none s k q' hls] at hy; simp at hy
      | some sv =>
        rw [obsF_cons_some t k q' tv hlt] at hx
        rw [obsF_cons_some s k q' sv hls] at hy
        have hcv : compatV tv sv = true := compatFs_lookup s t k sv tv hc hls hlt
        have hmm : isMap tv = isMap sv := compatV_isMap tv sv hcv
        cases htv : isMap tv with
        | true =>
          have hsv : isMap sv = true := by rw [← hmm, htv]
          obtain ⟨tfs, rfl⟩ : ∃ tfs, tv = .obj false tfs := by
            cases tv with
            | obj b fs =>
              cases b
              · exact ⟨fs, rfl⟩
              · simp [isMap] at htv
            | null => simp [isMap] at htv
            | bool b => simp [isMap] at htv
            | num n => simp [isMap] at htv
            | str s => simp [isMap] at htv
          obtain ⟨sfs, rfl⟩ : ∃ sfs, sv = .obj false sfs := by
            cases sv with
            | obj b fs =>
              cases b
              · exact ⟨fs, rfl⟩
              · simp [isMap] at hsv
            | null => simp [isMap] at hsv
            | bool b => simp [isMap] at hsv
            | num n => simp [isMap] at hsv
            | str s => simp [isMap] at hsv
          rw [obsV_map_eq] at hx hy
          exact ih tfs sfs (compatV_desc tfs sfs hcv) x y hx hy
        | false =>
          have hsv : isMap sv = false := by rw [← hmm, htv]
          cases q' with
          | nil =>
            rw [obsV_leaf_root tv htv] at hx
            rw [obsV_leaf_root sv hsv] at hy
            cases hx; cases hy
            simp
          | cons k2 q2 =>
            rw [obsV_notMap_cons tv k2 q2 htv] at hx
            simp at hx

theorem compatP_of_obs_eq (t t' s : Fields) (he : ∀ q, obsF t' q = obsF t q)
    (hc : CompatP t s) : CompatP t' s := by
  intro q x y hx hy
  exact hc q x y ((he q).symm.trans hx) hy

theorem compatP_oOr (m b a c : Fields)
    (hm : ∀ q, obsF m q = oOr (obsF b q) (obsF a q))
    (hbc : CompatP b c) (hac : CompatP a c) : CompatP m c := by
  intro q x y hx hy
  rw [hm q] at hx
  cases hb : obsF b q with
  | some xb =>
    rw [hb, oOr_some] at hx
    cases hx
    exact hbc q _ y hb hy
  | none =>
    rw [hb, oOr_none] at hx
    exact hac q x y hx hy

theorem oOr_obsF_nil (fs : Fields) (p : List String) :
    oOr (obsF fs p) (obsF ([] : Fields) p) = obsF fs p := by
  cases p with
  | nil => rw [obsF_root, obsF_root]; rfl
  | cons k q => rw [obsF_cons_none [] k q rfl, oOr_none_right]

/-- Observation law of the three-layer merge under pairwise shape
compatibility (and duplicate-free sources). -/
theorem obsF_merge3 (A B C : Fields)
    (hwA : wfFs A = true) (hwB : wfFs B = true) (hwC : wfFs C = true)
    (hAB : compatFs A B = true) (hAC : compatFs A C = true)
    (hBC : compatFs B C = true) (p : List String) :
    obsF (mergeObj (mergeObj (mergeObj [] A) B) C) p =
      oOr (obsF C p) (oOr (obsF B p) (obsF A p)) := by
  have hABp : CompatP A B := fun q => compatFs_toP q A B hAB
  have hACp : CompatP A C := fun q => compatFs_toP q A C hAC
  have hBCp : CompatP B C := fun q => compatFs_toP q B C hBC
  have he1 : ∀ q, obsF (mergeObj [] A) q = obsF A q := by
    intro q
    rw [obsF_mergeObj q [] A hwA (compatP_nilT A), oOr_obsF_nil]
  have hc1 : CompatP (mergeObj [] A) B := compatP_of_obs_eq A _ B he1 hABp
  have he2 : ∀ q, obsF (mergeObj (mergeObj [] A) B) q =
      oOr (obsF B q) (obsF A q) := by
    intro q
    rw [obsF_mergeObj q _ B hwB hc1, he1]
  have hc2 : CompatP (mergeObj (mergeObj [] A) B) C :=
    compatP_oOr _ B A C he2 hBCp hACp
  rw [obsF_mergeObj p _ C hwC hc2, he2]

/-! ### Lemmas about the validator -/

theorem atKey_ok_iff {α : Type} (k : String) (r : Except (List Issue) α) (a : α) :
    atKey k r = .ok a ↔ r = .ok a := by
  cases r <;> simp [atKey]

theorem errsOf_atKey {α : Type} (k : String) (r : Except (List Issue) α) :
    errsOf (atKey k r) = (errsOf r).map (fun i => ⟨k :: i.path, i.message⟩) := by
  cases r <;> simp [atKey, errsOf]

theorem collect5_ok_inv {α1 α2 α3 α4 α5 β : Type}
    (r1 : Except (List Issue) α1) (r2 : Except (List Issue) α2)
    (r3 : Except (List Issue) α3) (r4 : Except (List Issue) α4)
    (r5 : Except (List Issue) α5) (f : α1 → α2 → α3 → α4 → α5 → β) (x : β)
    (h : collect5 r1 r2 r3 r4 r5 f = .ok x) :
    ∃ a b c d e, r1 = .ok a ∧ r2 = .ok b ∧ r3 = .ok c ∧ r4 = .ok d ∧ r5 = .ok e
      ∧ x = f a b c d e := by
  cases r1 <;> cases r2 <;> cases r3 <;> cases r4 <;> cases r5 <;>
    simp_all [collect5]

theorem collect5_error_inv {α1 α2 α3 α4 α5 β : Type}
    (r1 : Except (List Issue) α1) (r2 : Except (List Issue) α2)
    (r3 : Except (List Issue) α3) (r4 : Except (List Issue) α4)
    (r5 : Except (List Issue) α5) (f : α1 → α2 → α3 → α4 → α5 → β)
    (es : List Issue) (h : collect5 r1 r2 r3 r4 r5 f = .error es) :
    es = errsOf r1 ++ errsOf r2 ++ errsOf r3 ++ errsOf r4 ++ errsOf r5 := by
  cases r1 <;> cases r2 <;> cases r3 <;> cases r4 <;> cases r5 <;>
    simp_all [collect5, errsOf]

theorem collect3_ok_inv {α1 α2 α3 β : Type}
    (r1 : Except (List Issue) α1) (r2 : Except (List Issue) α2)
    (r3 : Except (List Issue) α3) (f : α1 → α2 → α3 → β) (x : β)
    (h : collect3 r1 r2 r3 f = .ok x) :
    ∃ a b c, r1 = .ok a ∧ r2 = .ok b ∧ r3 = .ok c ∧ x = f a b c := by
  cases r1 <;> cases r2 <;> cases r3 <;> simp_all [collect3]

theorem collect3_error_inv {α1 α2 α3 β : Type}
    (r1 : Except (List Issue) α1) (r2 : Except (List Issue) α2)
    (r3 : Except (List Issue) α3) (f : α1 → α2 → α3 → β)
    (es : List Issue) (h : collect3 r1 r2 r3 f = .error es) :
    es = errsOf r1 ++ errsOf r2 ++ errsOf r3 := by
  cases r1 <;> cases r2 <;> cases r3 <;> simp_all [collect3, errsOf]

/-- A parse result is well-formed when any failure carries at least one
issue. -/
def GoodE {α : Type} (r : Except (List Issue) α) : Prop :=
  ∀ es, r = .error es → es ≠ []

theorem goodE_atKey {α : Type} (k : String) (r : Except (List Issue) α)
    (g : GoodE r) : GoodE (atKey k r) := by
  intro es h
  cases r with
  | ok a => simp [atKey] at h
  | error e =>
    have he := g e rfl
    simp [atKey] at h
    cases e with
    | nil => exact absurd rfl he
    | cons i rest => rw [← h]; simp

theorem goodE_zCoerceNumberMin (v : Option JValue) (m : Int) :
    GoodE ((zCoerceNumber v).bind (zNumberMin m)) := by
  intro es h
  unfold zCoerceNumber at h
  cases hj : jsNumber v with
  | none =>
    rw [hj] at h
    simp [Except.bind] at h
    exact h ▸ List.cons_ne_nil _ _
  | some n =>
    rw [hj] at h
    by_cases hm : n < m
    · simp [Except.bind, zNumberMin, hm] at h
      exact h ▸ List.cons_ne_nil _ _
    · simp [Except.bind, zNumberMin, hm] at h

theorem goodE_zString (v : Option JValue) : GoodE (zString v) := by
  intro es h
  unfold zString at h
  cases v with
  | none =>
    simp at h
    exact h ▸ List.cons_ne_nil _ _
  | some w =>
    cases w <;> simp at h <;> exact h ▸ List.cons_ne_nil _ _

theorem goodE_zNumber (v : Option JValue) : GoodE (zNumber v) := by
  intro es h
  unfold zNumber at h
  cases v with
  | none =>
    simp at h
    exact h ▸ List.cons_ne_nil _ _
  | some w =>
    cases w <;> simp at h <;> exact h ▸ List.cons_ne_nil _ _

theorem goodE_zUrl (v : Option JValue) : GoodE (zUrl v) := by
  intro es h
  unfold zUrl at h
  cases v with
  | none =>
    simp at h
    exact h ▸ List.cons_ne_nil _ _
  | some w =>
    cases w with
    | str s =>
      by_cases hu : isValidUrl s = true
      · simp [hu] at h
      · simp [hu] at h
        exact h ▸ List.cons_ne_nil _ _
    | null => simp at h; exact h ▸ List.cons_ne_nil _ _
    | bool b => simp at h; exact h ▸ List.cons_ne_nil _ _
    | num n => simp at h; exact h ▸ List.cons_ne_nil _ _
    | obj b fs => simp at h; exact h ▸ List.cons_ne_nil _ _

theorem goodE_collect3 {α1 α2 α3 β : Type}
    (r1 : Except (List Issue) α1) (r2 : Except (List Issue) α2)
    (r3 : Except (List Issue) α3) (f : α1 → α2 → α3 → β)
    (g1 : GoodE r1) (g2 : GoodE r2) (g3 : GoodE r3) :
    GoodE (collect3 r1 r2 r3 f) := by
  intro es h
  have hc := collect3_error_inv r1 r2 r3 f es h
  subst hc
  intro hnil
  rw [List.append_eq_nil, List.append_eq_nil] at hnil
  obtain ⟨⟨h1, h2⟩, h3⟩ := hnil
  obtain ⟨a1, e1⟩ : ∃ a, r1 = .ok a := by
    cases r1 with
    | ok a => exact ⟨a, rfl⟩
    | error e => exact absurd h1 (g1 e rfl)
  obtain ⟨a2, e2⟩ : ∃ a, r2 = .ok a := by
    cases r2 with
    | ok a => exact ⟨a, rfl⟩
    | error e => exact absurd h2 (g2 e rfl)
  obtain ⟨a3, e3⟩ : ∃ a, r3 = .ok a := by
    cases r3 with
    | ok a => exact ⟨a, rfl⟩
    | error e => exact absurd h3 (g3 e rfl)
  rw [e1, e2, e3] at h
  simp [collect3] at h

theorem goodE_collect5 {α1 α2 α3 α4 α5 β : Type}
    (r1 : Except (List Issue) α1) (r2 : Except (List Issue) α2)
    (r3 : Except (List Issue) α3) (r4 : Except (List Issue) α4)
    (r5 : Except (List Issue) α5) (f : α1 → α2 → α3 → α4 → α5 → β)
    (g1 : GoodE r1) (g2 : GoodE r2) (g3 : GoodE r3) (g4 : GoodE r4)
    (g5 : GoodE r5) : GoodE (collect5 r1 r2 r3 r4 r5 f) := by
  intro es h
  have hc := collect5_error_inv r1 r2 r3 r4 r5 f es h
  subst hc
  intro hnil
  rw [List.append_eq_nil, List.append_eq_nil, List.append_eq_nil,
    List.append_eq_nil] at hnil
  obtain ⟨⟨⟨⟨h1, h2⟩, h3⟩, h4⟩, h5⟩ := hnil
  obtain ⟨a1, e1⟩ : ∃ a, r1 = .ok a := by
    cases r1 with
    | ok a => exact ⟨a, rfl⟩
    | error e => exact absurd h1 (g1 e rfl)
  obtain ⟨a2, e2⟩ : ∃ a, r2 = .ok a := by
    cases r2 with
    | ok a => exact ⟨a, rfl⟩
    | error e => exact absurd h2 (g2 e rfl)
  obtain ⟨a3, e3⟩ : ∃ a, r3 = .ok a := by
    cases r3 with
    | ok a => exact ⟨a, rfl⟩
    | error e => exact absurd h3 (g3 e rfl)
  obtain ⟨a4, e4⟩ : ∃ a, r4 = .ok a := by
    cases r4 with
    | ok a => exact ⟨a, rfl⟩
    | error e => exact absurd h4 (g4 e rfl)
  obtain ⟨a5, e5⟩ : ∃ a, r5 = .ok a := by
    cases r5 with
    | ok a => exact ⟨a, rfl⟩
    | error e => exact absurd h5 (g5 e rfl)
  rw [e1, e2, e3, e4, e5] at h
  simp [collect5] at h

theorem goodE_error_singleton {α : Type} (i : Issue) :
    GoodE (Except.error [i] : Except (List Issue) α) := by
  intro es h
  simp at h
  exact h ▸ List.cons_ne_nil _ _

theorem goodE_bind {α β : Type} (r : Except (List Issue) α)
    (f : α → Except (List Issue) β) (gr : GoodE r) (gf : ∀ a, GoodE (f a)) :
    GoodE (r.bind f) := by
  intro es h
  cases r with
  | error e =>
    simp [Except.bind] at h
    exact h ▸ gr e rfl
  | ok a =>
    simp [Except.bind] at h
    exact gf a es h

theorem goodE_zOpt {α : Type} (inner : Option JValue → Except (List Issue) α)
    (v : Option JValue) (g : ∀ u, GoodE (inner u)) : GoodE (zOpt inner v) := by
  intro es h
  unfold zOpt at h
  cases v with
  | none => simp at h
  | some w =>
    cases hi : inner (some w) with
    | ok a => rw [hi] at h; simp [Except.map] at h
    | error e =>
      rw [hi] at h
      simp [Except.map] at h
      exact h ▸ g (some w) e hi

theorem goodE_zDefault {α : Type} (d : α)
    (inner : Option JValue → Except (List Issue) α) (v : Option JValue)
    (g : ∀ u, GoodE (inner u)) : GoodE (zDefault d inner v) := by
  intro es h
  unfold zDefault at h
  cases v with
  | none => simp at h
  | some w => exact g (some w) es h

theorem goodE_refineLoki (cfg : LogsConfigurationType) :
    GoodE (if !cfg.loki || optStrTruthy cfg.lokiUrl then
        (Except.ok cfg : Except (List Issue) LogsConfigurationType)
      else .error [⟨["lokiUrl"], "lokiUrl is required when loki is true"⟩]) := by
  by_cases hr : (!cfg.loki || optStrTruthy cfg.lokiUrl) = true
  · rw [if_pos hr]
    intro es h
    simp at h
  · rw [if_neg hr]
    exact goodE_error_singleton _

theorem goodE_parseLogs (v : Option JValue) : GoodE (parseLogsConfiguration v) := by
  unfold parseLogsConfiguration
  cases v with
  | none => exact goodE_error_singleton _
  | some w =>
    cases w with
    | obj b lfs =>
      cases b with
      | true => exact goodE_error_singleton _
      | false =>
        refine goodE_bind _ _ ?_ ?_
        · exact goodE_collect3 _ _ _ _
            (goodE_atKey _ _ (goodE_zOpt _ _ goodE_zUrl))
            (goodE_atKey _ _ (goodE_zOpt _ _ goodE_zString))
            (goodE_atKey _ _ (goodE_zOpt _ _ goodE_zString))
        · exact goodE_refineLoki
    | null => exact goodE_error_singleton _
    | bool b => exact goodE_error_singleton _
    | num n => exact goodE_error_singleton _
    | str s => exact goodE_error_singleton _

theorem goodE_dbPort (u : Option JValue) :
    GoodE ((zNumber u).bind (zNumberMin 1000)) := by
  refine goodE_bind _ _ (goodE_zNumber u) ?_
  intro n es h
  unfold zNumberMin at h
  by_cases hm : n < 1000
  · rw [if_pos hm] at h
    simp at h
    exact h ▸ List.cons_ne_nil _ _
  · rw [if_neg hm] at h
    simp at h

theorem goodE_parseDatabase (v : Option JValue) :
    GoodE (parseDatabaseConfiguration v) := by
  unfold parseDatabaseConfiguration
  cases v with
  | none => exact goodE_error_singleton _
  | some w =>
    cases w with
    | obj b dfs =>
      cases b with
      | true => exact goodE_error_singleton _
      | false =>
        exact goodE_collect5 _ _ _ _ _ _
          (goodE_atKey _ _ (goodE_zString _))
          (goodE_atKey _ _ (goodE_zString _))
          (goodE_atKey _ _ (goodE_zString _))
          (goodE_atKey _ _ (goodE_zDefault _ _ _ goodE_zNumber))
          (goodE_atKey _ _ (goodE_zDefault _ _ _ (fun u => goodE_dbPort u)))
    | null => exact goodE_error_singleton _
    | bool b => exact goodE_error_singleton _
    | num n => exact goodE_error_singleton _
    | str s => exact goodE_error_singleton _

theorem goodE_parseConfiguration (v : JValue) : GoodE (parseConfiguration v) := by
  unfold parseConfiguration
  cases v with
  | obj b fs =>
    cases b with
    | true => exact goodE_error_singleton _
    | false =>
      exact goodE_collect5 _ _ _ _ _ _
        (goodE_atKey _ _ (goodE_zCoerceNumberMin _ 1000))
        (goodE_atKey _ _ (goodE_zString _))
        (goodE_atKey _ _ (goodE_zDefault _ _ _ goodE_zNumber))
        (goodE_atKey _ _ (goodE_parseDatabase _))
        (goodE_atKey _ _ (goodE_parseLogs _))
  | null => exact goodE_error_singleton _
  | bool b => exact goodE_error_singleton _
  | num n => exact goodE_error_singleton _
  | str s => exact goodE_error_singleton _
theorem parseConfiguration_ok_inv (fs : Fields) (c : ConfigurationType)
    (h : parseConfiguration (.obj false fs) = .ok c) :
    (zCoerceNumber (lookupF fs "port")).bind (zNumberMin 1000) = .ok c.port
    ∧ zString (lookupF fs "tenant") = .ok c.tenant
    ∧ zDefault (-1) zNumber (lookupF fs "workers") = .ok c.workers
    ∧ parseDatabaseConfiguration (lookupF fs "database") = .ok c.database
    ∧ parseLogsConfiguration (lookupF fs "logs") = .ok c.logs := by
  unfold parseConfiguration at h
  obtain ⟨a, b, w, d, l, h1, h2, h3, h4, h5, hx⟩ := collect5_ok_inv _ _ _ _ _ _ _ h
  rw [atKey_ok_iff] at h1 h2 h3 h4 h5
  subst hx
  exact ⟨h1, h2, h3, h4, h5⟩

theorem parseDatabase_ok_shape (v : Option JValue) (d : DatabaseConfigurationType)
    (h : parseDatabaseConfiguration v = .ok d) :
    ∃ dfs, v = some (.obj false dfs) := by
  unfold parseDatabaseConfiguration at h
  cases v with
  | none => simp at h
  | some w =>
    cases w with
    | obj b dfs =>
      cases b with
      | false => exact ⟨dfs, rfl⟩
      | true => simp at h
    | null => simp at h
    | bool b => simp at h
    | num n => simp at h
    | str s => simp at h

theorem parseDatabase_ok_inv (dfs : Fields) (d : DatabaseConfigurationType)
    (h : parseDatabaseConfiguration (some (.obj false dfs)) = .ok d) :
    zString (lookupF dfs "host") = .ok d.host
    ∧ zString (lookupF dfs "username") = .ok d.username
    ∧ zString (lookupF dfs "password") = .ok d.password
    ∧ zDefault 10 zNumber (lookupF dfs "connectionLimit") = .ok d.connectionLimit
    ∧ zDefault 3306 (fun u => (zNumber u).bind (zNumberMin 1000)) (lookupF dfs "port")
        = .ok d.port := by
  unfold parseDatabaseConfiguration at h
  obtain ⟨a, b, w, cl, po, h1, h2, h3, h4, h5, hx⟩ := collect5_ok_inv _ _ _ _ _ _ _ h
  rw [atKey_ok_iff] at h1 h2 h3 h4 h5
  subst hx
  exact ⟨h1, h2, h3, h4, h5⟩

theorem parseLogs_ok_inv (lfs : Fields) (l : LogsConfigurationType)
    (h : parseLogsConfiguration (some (.obj false lfs)) = .ok l) :
    l.terminal = jsTruthy (lookupF lfs "terminal")
    ∧ l.dailyRotateFile = jsTruthy (lookupF lfs "dailyRotateFile")
    ∧ l.loki = jsTruthy (lookupF lfs "loki")
    ∧ zOpt zUrl (lookupF lfs "lokiUrl") = .ok l.lokiUrl
    ∧ (!l.loki || optStrTruthy l.lokiUrl) = true := by
  have hred : parseLogsConfiguration (some (.obj false lfs)) =
      (collect3
        (atKey "lokiUrl" (zOpt zUrl (lookupF lfs "lokiUrl")))
        (atKey "lokiAppName" (zOpt zString (lookupF lfs "lokiAppName")))
        (atKey "lokiEndpointToken" (zOpt zString (lookupF lfs "lokiEndpointToken")))
        (fun url app tok =>
          (⟨jsTruthy (lookupF lfs "terminal"),
            jsTruthy (lookupF lfs "dailyRotateFile"),
            jsTruthy (lookupF lfs "loki"), url, app, tok⟩ : LogsConfigurationType))).bind
        (fun cfg =>
          if !cfg.loki || optStrTruthy cfg.lokiUrl then .ok cfg
          else .error [⟨["lokiUrl"], "lokiUrl is required when loki is true"⟩]) := rfl
  rw [hred] at h
  cases hcol : collect3
      (atKey "lokiUrl" (zOpt zUrl (lookupF lfs "lokiUrl")))
      (atKey "lokiAppName" (zOpt zString (lookupF lfs "lokiAppName")))
      (atKey "lokiEndpointToken" (zOpt zString (lookupF lfs "lokiEndpointToken")))
      (fun url app tok =>
        (⟨jsTruthy (lookupF lfs "terminal"),
          jsTruthy (lookupF lfs "dailyRotateFile"),
          jsTruthy (lookupF lfs "loki"), url, app, tok⟩ : LogsConfigurationType)) with
  | error e =>
    rw [hcol] at h
    simp [Except.bind] at h
  | ok cfg =>
    rw [hcol] at h
    simp only [Except.bind] at h
    obtain ⟨url, app, tok, h1, h2, h3, hx⟩ := collect3_ok_inv _ _ _ _ _ hcol
    rw [atKey_ok_iff] at h1
    subst hx
    by_cases hr : (!jsTruthy (lookupF lfs "loki") || optStrTruthy url) = true
    · rw [if_pos hr] at h
      cases h
      exact ⟨rfl, rfl, rfl, h1, hr⟩
    · rw [if_neg hr] at h
      cases h

theorem leafAt_of_obs_leaf (fs : Fields) (p : List String) (u : JValue)
    (h : obsF fs p = some (some u)) : leafAt fs p = some u := by
  unfold leafAt; rw [h]

theorem leafAt_of_obs_map (fs : Fields) (p : List String)
    (h : obsF fs p = some none) : leafAt fs p = none := by
  unfold leafAt; rw [h]

theorem leafAt_of_obs_none (fs : Fields) (p : List String)
    (h : obsF fs p = none) : leafAt fs p = none := by
  unfold leafAt; rw [h]

/-- Claim C1 (amended): over shape-compatible, duplicate-free sources, the three
successive addSource calls produce exactly the base deep-merged with the
environment file deep-merged with the environment-variable mapping, in that
order, and at every leaf key the latest source containing it wins while leaf
keys present only in earlier sources survive. -/
theorem C1_layered_merge_leaf_law (A B C : Fields)
    (hwA : wfFs A = true) (hwB : wfFs B = true) (hwC : wfFs C = true)
    (hAB : compatFs A B = true) (hAC : compatFs A C = true)
    (hBC : compatFs B C = true) :
    ((((ReadConfig.new).addSource A).addSource B).addSource C).configurations
      = mergeObj (mergeObj (mergeObj [] A) B) C
    ∧ ∀ p, leafAt ((((ReadConfig.new).addSource A).addSource B).addSource C).configurations p
        = oOr (leafAt C p) (oOr (leafAt B p) (leafAt A p)) := by
  constructor
  · rfl
  · intro p
    have hABp : CompatP A B := fun q => compatFs_toP q A B hAB
    have hACp : CompatP A C := fun q => compatFs_toP q A C hAC
    have hBCp : CompatP B C := fun q => compatFs_toP q B C hBC
    have h3 := obsF_merge3 A B C hwA hwB hwC hAB hAC hBC p
    show leafAt (mergeObj (mergeObj (mergeObj [] A) B) C) p
      = oOr (leafAt C p) (oOr (leafAt B p) (leafAt A p))
    cases hC : obsF C p with
    | some u =>
      cases u with
      | some uv =>
        have hm : obsF (mergeObj (mergeObj (mergeObj [] A) B) C) p = some (some uv) := by
          rw [h3, hC]; rfl
        rw [leafAt_of_obs_leaf _ _ _ hm, leafAt_of_obs_leaf C p uv hC]
        rfl
      | none =>
        have hm : obsF (mergeObj (mergeObj (mergeObj [] A) B) C) p = some none := by
          rw [h3, hC]; rfl
        rw [leafAt_of_obs_map _ _ hm, leafAt_of_obs_map C p hC, oOr_none]
        have hlB : leafAt B p = none := by
          cases hB : obsF B p with
          | none => exact leafAt_of_obs_none B p hB
          | some y =>
            have hy : y = none := (hBCp p y none hB hC).mpr rfl
            subst hy
            exact leafAt_of_obs_map B p hB
        have hlA : leafAt A p = none := by
          cases hA : obsF A p with
          | none => exact leafAt_of_obs_none A p hA
          | some x =>
            have hx : x = none := (hACp p x none hA hC).mpr rfl
            subst hx
            exact leafAt_of_obs_map A p hA
        rw [hlB, hlA]
        rfl
    | none =>
      rw [leafAt_of_obs_none C p hC, oOr_none]
      cases hB : obsF B p with
      | some u =>
        cases u with
        | some uv =>
          have hm : obsF (mergeObj (mergeObj (mergeObj [] A) B) C) p = some (some uv) := by
            rw [h3, hC, hB]; rfl
          rw [leafAt_of_obs_leaf _ _ _ hm, leafAt_of_obs_leaf B p uv hB]
          rfl
        | none =>
          have hm : obsF (mergeObj (mergeObj (mergeObj [] A) B) C) p = some none := by
            rw [h3, hC, hB]; rfl
          rw [leafAt_of_obs_map _ _ hm, leafAt_of_obs_map B p hB, oOr_none]
          cases hA : obsF A p with
          | none => rw [leafAt_of_obs_none A p hA]
          | some x =>
            have hx : x = none := (hABp p x none hA hB).mpr rfl
            subst hx
            rw [leafAt_of_obs_map A p hA]
      | none =>
        rw [leafAt_of_obs_none B p hB, oOr_none]
        cases hA : obsF A p with
        | some u =>
          cases u with
          | some uv =>
            have hm : obsF (mergeObj (mergeObj (mergeObj [] A) B) C) p = some (some uv) := by
              rw [h3, hC, hB, hA]; rfl
            rw [leafAt_of_obs_leaf _ _ _ hm, leafAt_of_obs_leaf A p uv hA]
          | none =>
            have hm : obsF (mergeObj (mergeObj (mergeObj [] A) B) C) p = some none := by
              rw [h3, hC, hB, hA]; rfl
            rw [leafAt_of_obs_map _ _ hm, leafAt_of_obs_map A p hA]
        | none =>
          have hm : obsF (mergeObj (mergeObj (mergeObj [] A) B) C) p = none := by
            rw [h3, hC, hB, hA]; rfl
          rw [leafAt_of_obs_none _ _ hm, leafAt_of_obs_none A p hA]

/-! ### Concrete configurations used by the claim theorems -/

/-- The base mapping of the spec §8 scenario. -/
def baseScenario : Fields :=
  [("port", .num 8080), ("tenant", .str "t1"),
   ("logs", .obj false
     [("terminal", .bool true), ("dailyRotateFile", .bool false), ("loki", .bool false)]),
   ("database", .obj false
     [("host", .str "h"), ("username", .str "u"), ("password", .str "p")])]

/-- The resolved configuration of the spec §8 scenario (defaults filled in). -/
def resolvedScenario : ConfigurationType :=
  ⟨8080, "t1", -1, ⟨"h", "u", "p", 10, 3306⟩, ⟨true, false, false, none, none, none⟩⟩

/-- Environment-file mapping used by the C1 witness. -/
def mergeExB : Fields :=
  [("port", .num 9090), ("logs", .obj false [("loki", .bool true)])]

/-- Environment-variable mapping used by the C1 witness. -/
def mergeExC : Fields :=
  [("database", .obj false [("host", .str "h2")])]

/-! ### Claim theorems -/

/-- Claim C1, counterexample to the claim as stated: with base mapping
`a: (b: 1)`, environment-file mapping `a: 5` and empty environment-variable
mapping, the leaf key `a.b` is present only in the base (earliest) source,
yet the merged configuration does not retain it — the later scalar at `a`
wipes the whole nested mapping, so not every key present only in an earlier
source survives. -/
theorem C1_counterexample :
    leafAt [("a", JValue.obj false [("b", JValue.num 1)])] ["a", "b"] = some (JValue.num 1)
    ∧ leafAt [("a", JValue.num 5)] ["a", "b"] = none
    ∧ leafAt ([] : Fields) ["a", "b"] = none
    ∧ leafAt ((((ReadConfig.new).addSource
          [("a", JValue.obj false [("b", JValue.num 1)])]).addSource
          [("a", JValue.num 5)]).addSource ([] : Fields)).configurations ["a", "b"]
        = none :=
  ⟨rfl, rfl, rfl, rfl⟩

/-- Claim C1, witness: the amended theorem applied to the §8 base, a
shape-compatible environment file and a shape-compatible
environment-variable mapping, evaluated at the leaf key `database.host`. -/
theorem C1_witness :
    wfFs baseScenario = true ∧ wfFs mergeExB = true ∧ wfFs mergeExC = true
    ∧ compatFs baseScenario mergeExB = true
    ∧ compatFs baseScenario mergeExC = true
    ∧ compatFs mergeExB mergeExC = true
    ∧ leafAt ((((ReadConfig.new).addSource baseScenario).addSource
          mergeExB).addSource mergeExC).configurations ["database", "host"]
        = oOr (leafAt mergeExC ["database", "host"])
            (oOr (leafAt mergeExB ["database", "host"])
              (leafAt baseScenario ["database", "host"])) :=
  ⟨rfl, rfl, rfl, rfl, rfl, rfl,
    (C1_layered_merge_leaf_law baseScenario mergeExB mergeExC
      rfl rfl rfl rfl rfl rfl).2 ["database", "host"]⟩

/-- Claim C10: when a source key holds `null`, `deepMerge` treats it as a
scalar (`null` is falsy) and overwrites the target value at that key with
`null`, even when the target held a nested mapping there. -/
theorem C10_null_overwrites_mapping (t s : Fields) (k : String) (nfs : Fields)
    (hwf : wfFs s = true) (hs : lookupF s k = some .null)
    (_ht : lookupF t k = some (.obj false nfs)) :
    lookupF (mergeObj t s) k = some .null := by
  rw [lookupF_mergeObj s t k hwf, hs]
  show some (mergeStep t k .null) = some .null
  rw [mergeStep_of_notMap t k .null rfl]

/-- Claim C10, witness: merging `a: null` over `a: (b: 1)` leaves `null`
at `a`. -/
theorem C10_witness :
    wfFs [("a", JValue.null)] = true
    ∧ lookupF [("a", JValue.null)] "a" = some .null
    ∧ lookupF [("a", JValue.obj false [("b", JValue.num 1)])] "a"
        = some (.obj false [("b", JValue.num 1)])
    ∧ lookupF (mergeObj [("a", JValue.obj false [("b", JValue.num 1)])]
        [("a", JValue.null)]) "a" = some .null :=
  ⟨rfl, rfl, rfl,
    C10_null_overwrites_mapping _ _ "a" [("b", JValue.num 1)] rfl rfl rfl⟩

/-- Claim C2 (code bug): with the §8 base and the environment variable
`APP_DATABASE__CONNECTIONLIMIT=25`, the environment reader camel-cases the
underscore-free segment `CONNECTIONLIMIT` to the all-lowercase key
`connectionlimit`; the schema strips that unknown key, so validation
succeeds with the default `connectionLimit = 10` — not 25 as the spec's
round-trip (and the repository README) requires.  (Had the key matched,
`z.number()` without coercion would reject the string "25" anyway.) -/
theorem C2_connectionLimit_roundtrip_fails :
    ReadConfig.readFromEnvironment [("APP_DATABASE__CONNECTIONLIMIT", "25")]
        "APP" "_" "__" (some "_")
      = .ok [("database", .obj false [("connectionlimit", .str "25")])]
    ∧ buildConfig baseScenario [] [("APP_DATABASE__CONNECTIONLIMIT", "25")]
        = .ok (.ok resolvedScenario)
    ∧ resolvedScenario.database.connectionLimit = 10
    ∧ resolvedScenario.database.connectionLimit ≠ 25 :=
  ⟨rfl, rfl, rfl, by decide⟩

/-- The base mapping with string-valued numeric fields, as an
environment-variable source would produce them (used by claim C3). -/
def fieldsC3 : Fields :=
  [("port", .str "8080"), ("tenant", .str "t1"),
   ("logs", .obj false
     [("terminal", .bool true), ("dailyRotateFile", .bool false), ("loki", .bool false)]),
   ("database", .obj false
     [("host", .str "h"), ("username", .str "u"), ("password", .str "p"),
      ("connectionLimit", .str "25"), ("port", .str "3306")])]

/-- Claim C3 (code bug): on a configuration whose `port`,
`database.connectionLimit` and `database.port` hold numeric strings, only
the top-level `port` is coerced (`z.coerce.number()`); the two database
fields use plain `z.number()` and validation fails on exactly those two
fields, contrary to the claimed string-to-number parsing of all three. -/
theorem C3_database_numeric_strings_rejected :
    (zCoerceNumber (lookupF fieldsC3 "port")).bind (zNumberMin 1000) = .ok 8080
    ∧ parseConfiguration (.obj false fieldsC3)
        = .error
          [⟨["database", "connectionLimit"], "Invalid input: expected number, received string"⟩,
           ⟨["database", "port"], "Invalid input: expected number, received string"⟩] :=
  ⟨rfl, rfl⟩

/-- The resolved configuration of the C5 scenario (bare PORT wins). -/
def resolvedPort9999 : ConfigurationType :=
  ⟨9999, "t1", -1, ⟨"h", "u", "p", 10, 3306⟩, ⟨true, false, false, none, none, none⟩⟩

/-- Claim C5: over the §8 base with both `APP_PORT=9090` and bare
`PORT=9999` in the environment, the resolved port is 9999 — `addDefault`
applies the truthy bare `PORT` last, overriding the `APP_PORT`-derived
value, and `z.coerce.number()` parses the string. -/
theorem C5_bare_PORT_wins :
    buildConfig baseScenario [] [("APP_PORT", "9090"), ("PORT", "9999")]
      = .ok (.ok resolvedPort9999)
    ∧ resolvedPort9999.port = 9999 :=
  ⟨rfl, rfl⟩

theorem collect5_error_of_r5 {α1 α2 α3 α4 α5 β : Type}
    (r1 : Except (List Issue) α1) (r2 : Except (List Issue) α2)
    (r3 : Except (List Issue) α3) (r4 : Except (List Issue) α4)
    (e5 : List Issue) (f : α1 → α2 → α3 → α4 → α5 → β) :
    collect5 r1 r2 r3 r4 (.error e5) f
      = .error (errsOf r1 ++ errsOf r2 ++ errsOf r3 ++ errsOf r4 ++ e5) := by
  cases r1 <;> cases r2 <;> cases r3 <;> cases r4 <;> simp [collect5, errsOf]

/-- An optional field value acceptable to `z.string().optional()`:
absent, or an actual string. -/
def optStrOk (v : Option JValue) : Prop :=
  v = none ∨ ∃ s, v = some (.str s)

/-- Claim C4 (amended): when `logs` is a mapping whose `loki` field coerces
to true, whose `lokiUrl` is absent, and whose optional string fields pass
their own checks (absent or strings), validation fails and reports an issue
at path `logs.lokiUrl` with the message of the refinement.  (The amendment: when
another `logs` field-level check fails, zod skips the refinement and no
`logs.lokiUrl` issue is reported — see the counterexample.) -/
theorem C4_loki_requires_lokiUrl (fs lfs : Fields)
    (hlogs : lookupF fs "logs" = some (.obj false lfs))
    (hloki : jsTruthy (lookupF lfs "loki") = true)
    (hurl : lookupF lfs "lokiUrl" = none)
    (happ : optStrOk (lookupF lfs "lokiAppName"))
    (htok : optStrOk (lookupF lfs "lokiEndpointToken")) :
    ∃ es, parseConfiguration (.obj false fs) = .error es
      ∧ (⟨["logs", "lokiUrl"], "lokiUrl is required when loki is true"⟩ : Issue) ∈ es := by
  have hlr : parseLogsConfiguration (lookupF fs "logs")
      = .error [⟨["lokiUrl"], "lokiUrl is required when loki is true"⟩] := by
    rw [hlogs]
    have hred : parseLogsConfiguration (some (.obj false lfs)) =
        (collect3
          (atKey "lokiUrl" (zOpt zUrl (lookupF lfs "lokiUrl")))
          (atKey "lokiAppName" (zOpt zString (lookupF lfs "lokiAppName")))
          (atKey "lokiEndpointToken" (zOpt zString (lookupF lfs "lokiEndpointToken")))
          (fun url app tok =>
            (⟨jsTruthy (lookupF lfs "terminal"),
              jsTruthy (lookupF lfs "dailyRotateFile"),
              jsTruthy (lookupF lfs "loki"), url, app, tok⟩ : LogsConfigurationType))).bind
          (fun cfg =>
            if !cfg.loki || optStrTruthy cfg.lokiUrl then .ok cfg
            else .error [⟨["lokiUrl"], "lokiUrl is required when loki is true"⟩]) := rfl
    rw [hred, hurl]
    rcases happ with happ | ⟨sa, happ⟩ <;> rcases htok with htok | ⟨st, htok⟩ <;>
      rw [happ, htok] <;>
      simp [zOpt, zString, zUrl, atKey, collect3, Except.bind, Except.map,
        hloki, optStrTruthy]
  have hred2 : parseConfiguration (.obj false fs) =
      collect5
        (atKey "port" ((zCoerceNumber (lookupF fs "port")).bind (zNumberMin 1000)))
        (atKey "tenant" (zString (lookupF fs "tenant")))
        (atKey "workers" (zDefault (-1) zNumber (lookupF fs "workers")))
        (atKey "database" (parseDatabaseConfiguration (lookupF fs "database")))
        (atKey "logs" (parseLogsConfiguration (lookupF fs "logs")))
        (fun p t w d l => (⟨p, t, w, d, l⟩ : ConfigurationType)) := rfl
  have hat : atKey "logs" (parseLogsConfiguration (lookupF fs "logs"))
      = .error [⟨["logs", "lokiUrl"], "lokiUrl is required when loki is true"⟩] := by
    rw [hlr]; rfl
  refine ⟨errsOf (atKey "port" ((zCoerceNumber (lookupF fs "port")).bind (zNumberMin 1000)))
      ++ errsOf (atKey "tenant" (zString (lookupF fs "tenant")))
      ++ errsOf (atKey "workers" (zDefault (-1) zNumber (lookupF fs "workers")))
      ++ errsOf (atKey "database" (parseDatabaseConfiguration (lookupF fs "database")))
      ++ [⟨["logs", "lokiUrl"], "lokiUrl is required when loki is true"⟩], ?_, ?_⟩
  · rw [hred2, hat]
    exact collect5_error_of_r5 _ _ _ _ _ _
  · simp [List.mem_append]

/-- The logs mapping of the C4 counterexample: `loki` is true and `lokiUrl`
absent, but `lokiAppName` holds a number, failing its own field check. -/
def fieldsC4 : Fields :=
  [("port", .num 8080), ("tenant", .str "t1"),
   ("logs", .obj false
     [("terminal", .bool true), ("dailyRotateFile", .bool false),
      ("loki", .bool true), ("lokiAppName", .num 42)]),
   ("database", .obj false
     [("host", .str "h"), ("username", .str "u"), ("password", .str "p")])]

/-- Claim C4, counterexample to the claim as stated: with `logs.loki = true`
and `logs.lokiUrl` absent but `logs.lokiAppName` a number, the base object
parse of `logs` fails, zod skips the refinement, and the single reported
violation references `logs.lokiAppName` — no violation references
`logs.lokiUrl`. -/
theorem C4_counterexample :
    lookupF fieldsC4 "logs" = some (.obj false
      [("terminal", .bool true), ("dailyRotateFile", .bool false),
       ("loki", .bool true), ("lokiAppName", .num 42)])
    ∧ jsTruthy (lookupF
        [("terminal", JValue.bool true), ("dailyRotateFile", JValue.bool false),
         ("loki", JValue.bool true), ("lokiAppName", JValue.num 42)] "loki") = true
    ∧ lookupF
        [("terminal", JValue.bool true), ("dailyRotateFile", JValue.bool false),
         ("loki", JValue.bool true), ("lokiAppName", JValue.num 42)] "lokiUrl" = none
    ∧ parseConfiguration (.obj false fieldsC4)
        = .error [⟨["logs", "lokiAppName"], "Invalid input: expected string, received number"⟩]
    ∧ ∀ i ∈ [(⟨["logs", "lokiAppName"],
          "Invalid input: expected string, received number"⟩ : Issue)],
        i.path ≠ ["logs", "lokiUrl"] :=
  ⟨rfl, rfl, rfl, rfl, by decide⟩

/-- Claim C4, witness: the amended theorem applied to a configuration whose
logs mapping is exactly `loki: true`. -/
theorem C4_witness :
    lookupF [("logs", JValue.obj false [("loki", JValue.bool true)])] "logs"
      = some (.obj false [("loki", JValue.bool true)])
    ∧ jsTruthy (lookupF [("loki", JValue.bool true)] "loki") = true
    ∧ lookupF [("loki", JValue.bool true)] "lokiUrl" = none
    ∧ ∃ es, parseConfiguration
          (.obj false [("logs", JValue.obj false [("loki", JValue.bool true)])])
        = .error es
      ∧ (⟨["logs", "lokiUrl"], "lokiUrl is required when loki is true"⟩ : Issue) ∈ es :=
  ⟨rfl, rfl, rfl,
    C4_loki_requires_lokiUrl [("logs", JValue.obj false [("loki", JValue.bool true)])]
      [("loki", JValue.bool true)] rfl rfl rfl (Or.inl rfl) (Or.inl rfl)⟩

/-- Claim C6: when `workers`, `database.connectionLimit` or `database.port`
is absent from the raw configuration, a successful validation resolves them
to the defaults −1, 10 and 3306; and the §8 scenario (base file only, empty
environment file, no environment variables) resolves to port 8080 with
exactly those three defaults filled in. -/
theorem C6_defaults_applied (fs : Fields) (c : ConfigurationType)
    (h : parseConfiguration (.obj false fs) = .ok c) :
    (lookupF fs "workers" = none → c.workers = -1)
    ∧ (∀ dfs, lookupF fs "database" = some (.obj false dfs) →
        (lookupF dfs "connectionLimit" = none → c.database.connectionLimit = 10)
        ∧ (lookupF dfs "port" = none → c.database.port = 3306))
    ∧ buildConfig baseScenario [] [] = .ok (.ok resolvedScenario)
    ∧ resolvedScenario.port = 8080
    ∧ resolvedScenario.workers = -1
    ∧ resolvedScenario.database.connectionLimit = 10
    ∧ resolvedScenario.database.port = 3306 := by
  obtain ⟨hp, ht, hw, hd, hl⟩ := parseConfiguration_ok_inv fs c h
  refine ⟨?_, ?_, rfl, rfl, rfl, rfl, rfl⟩
  · intro hnone
    rw [hnone] at hw
    simp [zDefault] at hw
    omega
  · intro dfs hdfs
    rw [hdfs] at hd
    obtain ⟨_, _, _, hcl, hpo⟩ := parseDatabase_ok_inv dfs c.database hd
    constructor
    · intro hnone
      rw [hnone] at hcl
      simp [zDefault] at hcl
      omega
    · intro hnone
      rw [hnone] at hpo
      simp [zDefault] at hpo
      omega

/-- Claim C6, witness: the defaults theorem applied to the §8 base itself
(whose `workers` and database numeric fields are absent). -/
theorem C6_witness :
    parseConfiguration (.obj false baseScenario) = .ok resolvedScenario
    ∧ lookupF baseScenario "workers" = none
    ∧ resolvedScenario.workers = -1 :=
  ⟨rfl, rfl, (C6_defaults_applied baseScenario resolvedScenario rfl).1 rfl⟩

/-- Claim C7: validation never stops at the first violation — on failure the
issue list is exactly the concatenation of the issues of every field, in shape
order, and the thrown message is the newline-joined list of dot-joined-path
colon message lines. -/
theorem C7_all_violations_reported (fs : Fields) (es : List Issue)
    (h : parseConfiguration (.obj false fs) = .error es) :
    es = errsOf (atKey "port" ((zCoerceNumber (lookupF fs "port")).bind (zNumberMin 1000)))
      ++ errsOf (atKey "tenant" (zString (lookupF fs "tenant")))
      ++ errsOf (atKey "workers" (zDefault (-1) zNumber (lookupF fs "workers")))
      ++ errsOf (atKey "database" (parseDatabaseConfiguration (lookupF fs "database")))
      ++ errsOf (atKey "logs" (parseLogsConfiguration (lookupF fs "logs")))
    ∧ validationErrorMessage es
      = "Configuration validation failed:\n "
        ++ String.intercalate "\n  " (es.map formatIssue) := by
  constructor
  · unfold parseConfiguration at h
    exact collect5_error_inv _ _ _ _ _ _ es h
  · rfl

/-- A raw configuration with four simultaneous violations (used by the C7
witness). -/
def fieldsC7 : Fields := [("tenant", .num 5)]

/-- The four issues produced by `fieldsC7`. -/
def issuesC7 : List Issue :=
  [⟨["port"], "Invalid input: expected number, received NaN"⟩,
   ⟨["tenant"], "Invalid input: expected string, received number"⟩,
   ⟨["database"], "Invalid input: expected object, received undefined"⟩,
   ⟨["logs"], "Invalid input: expected object, received undefined"⟩]

/-- Claim C7, witness: a configuration violating four fields at once reports
all four issues. -/
theorem C7_witness :
    parseConfiguration (.obj false fieldsC7) = .error issuesC7
    ∧ issuesC7
      = errsOf (atKey "port" ((zCoerceNumber (lookupF fieldsC7 "port")).bind (zNumberMin 1000)))
        ++ errsOf (atKey "tenant" (zString (lookupF fieldsC7 "tenant")))
        ++ errsOf (atKey "workers" (zDefault (-1) zNumber (lookupF fieldsC7 "workers")))
        ++ errsOf (atKey "database" (parseDatabaseConfiguration (lookupF fieldsC7 "database")))
        ++ errsOf (atKey "logs" (parseLogsConfiguration (lookupF fieldsC7 "logs"))) :=
  ⟨rfl, (C7_all_violations_reported fieldsC7 issuesC7 rfl).1⟩

/-- Claim C8: validation is a total function into a structured result — for
every raw value it either returns the resolved configuration or returns a
non-empty list of violations; no other outcome (and in particular no thrown
exception inside `safeParse`) exists, escalation being the caller's
`buildConfig` formatting of the returned issues. -/
theorem C8_structured_result (v : JValue) :
    (∃ c, parseConfiguration v = .ok c)
    ∨ (∃ es, parseConfiguration v = .error es ∧ es ≠ []) := by
  cases hr : parseConfiguration v with
  | ok c => exact Or.inl ⟨c, rfl⟩
  | error es => exact Or.inr ⟨es, rfl, goodE_parseConfiguration v es hr⟩

/-- A raw configuration whose `logs.dailyRotateFile` holds the string
"false" (used by the C9 counterexample). -/
def fieldsC9 : Fields :=
  [("port", .num 8080), ("tenant", .str "t1"),
   ("logs", .obj false
     [("terminal", .bool true), ("dailyRotateFile", .str "false")]),
   ("database", .obj false
     [("host", .str "h"), ("username", .str "u"), ("password", .str "p")])]

/-- The resolved configuration of `fieldsC9`. -/
def resolvedC9 : ConfigurationType :=
  ⟨8080, "t1", -1, ⟨"h", "u", "p", 10, 3306⟩, ⟨true, true, false, none, none, none⟩⟩

/-- Claim C9, counterexample to the claim as stated: the common falsy string
form "false" in `logs.dailyRotateFile` coerces to `true`, not `false` —
`z.coerce.boolean()` is JS `Boolean(...)`, for which every non-empty string
is truthy. -/
theorem C9_counterexample :
    lookupF [("terminal", JValue.bool true), ("dailyRotateFile", JValue.str "false")]
        "dailyRotateFile" = some (.str "false")
    ∧ parseConfiguration (.obj false fieldsC9) = .ok resolvedC9
    ∧ resolvedC9.logs.dailyRotateFile = true :=
  ⟨rfl, rfl, rfl⟩

/-- Claim C9 (amended): boolean-typed `logs` fields holding strings coerce
by JS truthiness — any non-empty string (including "false" and "0") coerces
to `true`, and only the empty string coerces to `false`. -/
theorem C9_truthiness_coercion (fs lfs : Fields) (s1 s2 s3 : String)
    (c : ConfigurationType)
    (hlogs : lookupF fs "logs" = some (.obj false lfs))
    (h1 : lookupF lfs "terminal" = some (.str s1))
    (h2 : lookupF lfs "dailyRotateFile" = some (.str s2))
    (h3 : lookupF lfs "loki" = some (.str s3))
    (h : parseConfiguration (.obj false fs) = .ok c) :
    c.logs.terminal = (s1 != "") ∧ c.logs.dailyRotateFile = (s2 != "")
    ∧ c.logs.loki = (s3 != "") := by
  obtain ⟨_, _, _, _, hl⟩ := parseConfiguration_ok_inv fs c h
  rw [hlogs] at hl
  obtain ⟨ht, hd, hlk, _, _⟩ := parseLogs_ok_inv lfs c.logs hl
  rw [h1] at ht
  rw [h2] at hd
  rw [h3] at hlk
  exact ⟨ht, hd, hlk⟩

/-- The logs mapping of the C9 witness: three string-valued boolean fields. -/
def lfsC9w : Fields :=
  [("terminal", .str "yes"), ("dailyRotateFile", .str "false"), ("loki", .str "")]

/-- The raw configuration of the C9 witness. -/
def fieldsC9w : Fields :=
  [("port", .num 8080), ("tenant", .str "t1"),
   ("logs", .obj false lfsC9w),
   ("database", .obj false
     [("host", .str "h"), ("username", .str "u"), ("password", .str "p")])]

/-- The resolved configuration of the C9 witness. -/
def resolvedC9w : ConfigurationType :=
  ⟨8080, "t1", -1, ⟨"h", "u", "p", 10, 3306⟩, ⟨true, true, false, none, none, none⟩⟩

/-- Claim C9, witness: the truthiness-coercion theorem applied to string
fields "yes", "false" and "". -/
theorem C9_witness :
    parseConfiguration (.obj false fieldsC9w) = .ok resolvedC9w
    ∧ (resolvedC9w.logs.terminal = ("yes" != "")
      ∧ resolvedC9w.logs.dailyRotateFile = ("false" != "")
      ∧ resolvedC9w.logs.loki = ("" != "")) :=
  ⟨rfl, C9_truthiness_coercion fieldsC9w lfsC9w "yes" "false" "" resolvedC9w
    rfl rfl rfl rfl rfl⟩

end NodeStarter
